import Mathlib

/-!
# Motion-to-CAN control pipeline: frame codec, transport state and kinematics

A shallow embedding of `canthread.cpp` / `mainwindow.cpp`.

* `double` values are modelled by the elements of a linear ordered field with a
  floor function (`ℚ` for concrete evaluation, `ℝ` for the solver); arithmetic on
  them is exact.  `cos`, `sin` and `sqrt` are parameters of the solver.
* `int` / `int32_t` values are integers; the conversions the code performs
  (`int → canid_t`, `int → __u8`, `double → int32_t`) are explicit functions.
* The transport object is a record; every member function returns the new record
  together with the effects (system calls on the socket and emitted signals) it
  performed, in program order.  Whatever the operating system decides (results of
  `socket`, `ioctl`, `bind`, `write`, of the spawned shell commands, the clock) is
  an argument of the function.
-/

namespace CAN

/-! ## Frame codec (`canthread.cpp`) -/

/-- The part of `struct can_frame` the program uses: `can_id` (an unsigned 32-bit
`canid_t`), `can_dlc` and the eight payload bytes `data[0..7]`. -/
structure can_frame where
  can_id : Nat
  can_dlc : Nat
  data : List Nat
deriving DecidableEq, Repr

/-- Conversion `int → canid_t` performed by the assignment `frame.can_id = id`:
the value modulo `2^32`. -/
def canid_of_int (id : Int) : Nat := (id % 2 ^ 32).toNat

/-- Conversion `int → __u8` performed by an assignment `frame.data[i] = e`. -/
def u8_of_int (x : Int) : Nat := (x % 256).toNat

/-- The member constant `m_pulsePerMM = 2000.0`. -/
def m_pulsePerMM {α : Type} [LinearOrderedField α] : α := 2000

/-- The function `std::round`: nearest integer, halfway cases away from zero. -/
def std_round {α : Type} [LinearOrderedField α] [FloorRing α] (x : α) : Int :=
  if 0 ≤ x then ⌊x + 1 / 2⌋ else ⌈x - 1 / 2⌉

/-- The conversion `static_cast<int32_t>` applied to an integral `double`: the
value itself when it is representable; the behaviour is undefined otherwise, which
is the result `none`. -/
def static_cast_int32 (x : Int) : Option Int :=
  if -(2 : Int) ^ 31 ≤ x ∧ x < (2 : Int) ^ 31 then some x else none

/-- The payload written by `packPositionData` for an already converted `pulse`;
`>>` on `int32_t` is the arithmetic shift and `&` the bitwise and. -/
def positionPayload (pulse : Int) : List Nat :=
  [ 0x00,
    0x1A,
    0x50,
    u8_of_int (Int.land (pulse >>> (24 : Nat)) 0xFF),
    u8_of_int (Int.land (pulse >>> (16 : Nat)) 0xFF),
    0x05,
    u8_of_int (Int.land (pulse >>> (8 : Nat)) 0xFF),
    u8_of_int (Int.land pulse 0xFF) ]

/-- The function `CANThread::packPositionData`; the frame written through the
reference parameter is the result. -/
def packPositionData {α : Type} [LinearOrderedField α] [FloorRing α]
    (id : Int) (position : α) : Option can_frame :=
  match static_cast_int32 (std_round (position * m_pulsePerMM)) with
  | none => none
  | some pulse =>
    some { can_id := canid_of_int id, can_dlc := 8, data := positionPayload pulse }

/-- Conversion `double → int32_t` of an argument (in `emit positionSent(id,
position)`): truncation toward zero, undefined (`none`) outside the range. -/
def double_to_int32 {α : Type} [LinearOrderedField α] [FloorRing α] (x : α) : Option Int :=
  static_cast_int32 (if 0 ≤ x then ⌊x⌋ else ⌈x⌉)

/-- The value of `sizeof(can_frame)`. -/
def sizeof_can_frame : Int := 16

/-- Upper-case hexadecimal digits of a number (`QString::number(n, 16).toUpper()`). -/
def hexUpper (n : Nat) : String :=
  String.mk ((Nat.toDigits 16 n).map Char.toUpper)

/-- The function `QString::rightJustified(width, fill)` without truncation. -/
def rightJustified (width : Nat) (fill : Char) (s : String) : String :=
  String.mk (List.replicate (width - s.length) fill) ++ s

/-- The loop building `dataStr`: the first `can_dlc` bytes, each as two hexadecimal
digits followed by a blank. -/
def dataStr (frame : can_frame) : String :=
  (frame.data.take frame.can_dlc).foldl
    (fun acc b => acc ++ (rightJustified 2 '0' (hexUpper b) ++ " ")) ""

/-- The log line of a frame, after the tag `[发送]` or `[接收]`. -/
def frameText (tag : String) (frame : can_frame) : String :=
  tag ++ " ID: 0x" ++ rightJustified 3 '0' (hexUpper frame.can_id)
    ++ " | DLC: " ++ toString frame.can_dlc ++ " | 数据: " ++ (dataStr frame).trim

/-! ## Transport (`canthread.h`, `canthread.cpp`) -/

/-- The record `CANThread::CanConfig`. -/
structure CanConfig where
  interface : String
  bitrate : Int
  socket : Int
  running : Bool
deriving DecidableEq, Repr

/-- The object `CANThread`: its member `m_can` and the state of the `QThread` it
derives from.  `isRunning` is what `QThread::isRunning()` returns: it becomes true
by `QThread::start()` and false again when `run` has returned. -/
structure CANThread where
  m_can : CanConfig
  isRunning : Bool
deriving DecidableEq, Repr

/-- What a member function does to the outside, in program order: system calls and
emitted signals. -/
inductive Effect where
  | spawn (cmd : String)
  | sys_socket
  | sys_ioctl (fd : Int)
  | sys_bind (fd : Int)
  | sys_close (fd : Int)
  | sys_write (fd : Int) (frame : can_frame)
  | canStatusChanged (connected : Bool)
  | errorOccurred (error : String)
  | positionSent (id : Int) (position : Int)
  | frameInfo (info : String)
deriving DecidableEq, Repr

/-- The constructor `CANThread::CANThread`: `socket = -1`, `running = false` by the
member initialisers, an empty interface name; `bitrate` has no initialiser, its
value is the argument. -/
def CANThread.new (bitrate0 : Int) : CANThread :=
  { m_can := { interface := "", bitrate := bitrate0, socket := -1, running := false },
    isRunning := false }

/-- Outcome of one spawned shell command: `waitForFinished(2000)` failed, or the
process ended with an exit code and a standard-error text. -/
inductive ProcessResult where
  | timedOut
  | exited (exitCode : Int) (standardError : String)

/-- What the operating system answers during one call of `initCAN`.  `socketRet` is
the result of `socket(...)`: a descriptor, or `none` for the failure value `-1`. -/
structure ConnectEnv where
  process : String → ProcessResult
  socketRet : Option Nat
  ioctlRet : Int
  bindRet : Int
  strerror : String

/-- The list `commands` of `initCAN`. -/
def commands (interface : String) (bitrate : Int) : List String :=
  [ "sudo ip link set " ++ interface ++ " down",
    "sudo ip link set " ++ interface ++ " type can bitrate " ++ toString bitrate,
    "sudo ip link set " ++ interface ++ " up" ]

/-- The `foreach` loop of `initCAN`: the effects, and whether every command
succeeded (`false` is the early `return false`). -/
def runCommands (process : String → ProcessResult) : List String → List Effect × Bool
  | [] => ([], true)
  | cmd :: rest =>
    match process cmd with
    | .timedOut => ([.spawn cmd, .errorOccurred ("命令超时: " ++ cmd)], false)
    | .exited exitCode standardError =>
      if exitCode ≠ 0 then
        ([.spawn cmd, .errorOccurred ("命令错误: " ++ cmd ++ "\n" ++ standardError)], false)
      else
        ((.spawn cmd :: (runCommands process rest).1), (runCommands process rest).2)

/-- The function `CANThread::initCAN`: new object, effects, returned value. -/
def initCAN (t : CANThread) (interface : String) (bitrate : Int) (env : ConnectEnv) :
    CANThread × List Effect × Bool :=
  -- 关闭旧socket
  let closed : CANThread × List Effect :=
    if t.m_can.socket ≠ -1 then
      ({ t with m_can := { t.m_can with socket := -1 } }, [.sys_close t.m_can.socket])
    else (t, [])
  let t1 := closed.1
  -- 配置CAN接口
  let cmds := runCommands env.process (commands interface bitrate)
  if cmds.2 = false then (t1, closed.2 ++ cmds.1, false)
  else
    -- 创建socket
    match env.socketRet with
    | none =>
      ({ t1 with m_can := { t1.m_can with socket := -1 } },
        closed.2 ++ cmds.1
          ++ [.sys_socket, .errorOccurred ("Socket创建失败: " ++ env.strerror)], false)
    | some fd =>
      -- 绑定接口
      if env.ioctlRet < 0 then
        ({ t1 with m_can := { t1.m_can with socket := -1 } },
          closed.2 ++ cmds.1
            ++ [.sys_socket, .sys_ioctl fd,
                .errorOccurred ("接口绑定失败: " ++ env.strerror), .sys_close fd], false)
      else if env.bindRet < 0 then
        ({ t1 with m_can := { t1.m_can with socket := -1 } },
          closed.2 ++ cmds.1
            ++ [.sys_socket, .sys_ioctl fd, .sys_bind fd,
                .errorOccurred ("绑定失败: " ++ env.strerror), .sys_close fd], false)
      else
        ({ t1 with m_can :=
            { interface := interface, bitrate := bitrate, socket := fd, running := true } },
          closed.2 ++ cmds.1
            ++ [.sys_socket, .sys_ioctl fd, .sys_bind fd, .canStatusChanged true], true)

/-- The function `CANThread::stop`.  `threadExits` tells whether the thread, when it
is running, finishes during `wait(500)`. -/
def stop (t : CANThread) (threadExits : Bool) : CANThread × List Effect :=
  let t1 : CANThread := { t with m_can := { t.m_can with running := false } }
  -- 等待线程退出
  let t2 : CANThread :=
    if t1.isRunning then { t1 with isRunning := !threadExits } else t1
  if t2.m_can.socket ≠ -1 then
    ({ t2 with m_can := { t2.m_can with socket := -1 } },
      [.sys_close t2.m_can.socket, .canStatusChanged false])
  else (t2, [.canStatusChanged false])

/-- What the environment answers during one call of `sendPosition`: the formatted
clock, the result of `write` and the error text. -/
structure SendEnv where
  now : String
  writeRet : Int
  strerror : String

/-- The function `CANThread::sendPosition`; `none` is undefined behaviour of one of
the two conversions to `int32_t`. -/
def sendPosition {α : Type} [LinearOrderedField α] [FloorRing α]
    (t : CANThread) (id : Int) (position : α) (env : SendEnv) :
    Option (CANThread × List Effect) :=
  if !t.m_can.running || t.m_can.socket < 0 then
    some (t, [.errorOccurred "CAN未连接"])
  else
    match packPositionData id position with
    | none => none
    | some frame =>
      let sent : List Effect :=
        [.frameInfo (env.now ++ frameText "[发送]" frame), .sys_write t.m_can.socket frame]
      if env.writeRet ≠ sizeof_can_frame then
        some (t, sent ++ [.errorOccurred ("发送失败: " ++ env.strerror)])
      else
        match double_to_int32 position with
        | none => none
        | some shown => some (t, sent ++ [.positionSent id shown])

/-- The frame `modeFrame` of `initMotorSettings`. -/
def modeFrame (id : Int) : can_frame :=
  { can_id := canid_of_int id, can_dlc := 8,
    data := [0x00, 0x1A, 0x02, 0x00, 0xD0, 0xFF, 0xFF, 0xFF] }

/-- The frame `enableFrame` of `initMotorSettings`. -/
def enableFrame (id : Int) : can_frame :=
  { can_id := canid_of_int id, can_dlc := 8,
    data := [0x00, 0x1A, 0x00, 0x00, 0x01, 0xFF, 0xFF, 0xFF] }

/-- The function `CANThread::initMotorSettings`; `writeRet1`, `writeRet2` are the
results of the two calls of `write` (the second call is made only when the first
wrote a full frame). -/
def initMotorSettings (t : CANThread) (id : Int) (writeRet1 writeRet2 : Int) :
    CANThread × List Effect :=
  if !t.m_can.running || t.m_can.socket < 0 then
    (t, [.errorOccurred "CAN未连接"])
  else if writeRet1 ≠ sizeof_can_frame then
    (t, [.sys_write t.m_can.socket (modeFrame id), .errorOccurred "初始化命令发送失败"])
  else if writeRet2 ≠ sizeof_can_frame then
    (t, [.sys_write t.m_can.socket (modeFrame id),
         .sys_write t.m_can.socket (enableFrame id), .errorOccurred "初始化命令发送失败"])
  else
    (t, [.sys_write t.m_can.socket (modeFrame id),
         .sys_write t.m_can.socket (enableFrame id), .frameInfo "[系统] 驱动器初始化完成"])

/-! ## Solver and slots (`mainwindow.cpp`) -/

/-- The function `MainWindow::inverseKinematics`, over a field that stands for
`double`, with the library functions `cos`, `sin`, `sqrt` as arguments. -/
def inverseKinematics {α : Type} [LinearOrderedField α] (cos sin sqrt : α → α)
    (theta gamma : α) : α × α :=
  let r : α := 189.04
  let R : α := 306.25
  let h0 : α := 831.278
  let L0 : α := 839.5
  let c_theta := cos theta
  let s_theta := sin theta
  let c_gamma := cos gamma
  let s_gamma := sin gamma
  let T : Fin 3 → Fin 3 → α :=
    ![![c_theta, s_theta * s_gamma, s_theta * c_gamma],
      ![0, c_gamma, -s_gamma],
      ![-s_theta, c_theta * s_gamma, c_theta * c_gamma]]
  let q1 : Fin 3 → α := ![r, 0, 0]
  let q2 : Fin 3 → α := ![0, r, 0]
  let p1 : Fin 3 → α := ![R, 0, 0]
  let p2 : Fin 3 → α := ![0, R, 0]
  let t : Fin 3 → α := ![0, 0, h0]
  let transform : (Fin 3 → α) → (Fin 3 → α) := fun q =>
    ![T 0 0 * q 0 + T 0 1 * q 1 + T 0 2 * q 2 + t 0,
      T 1 0 * q 0 + T 1 1 * q 1 + T 1 2 * q 2 + t 1,
      T 2 0 * q 0 + T 2 1 * q 1 + T 2 2 * q 2 + t 2]
  let calculateLength : (Fin 3 → α) → (Fin 3 → α) → α := fun a b =>
    sqrt (([0, 1, 2] : List (Fin 3)).foldl
      (fun sum i => sum + (a i - b i) * (a i - b i)) 0)
  let u_q1 := transform q1
  let u_q2 := transform q2
  let l1 := calculateLength u_q1 p1
  let l2 := calculateLength u_q2 p2
  (l1 - L0, l2 - L0)

/-- The function `qDegreesToRadians`, with the constant `M_PI` as argument. -/
def qDegreesToRadians {α : Type} [LinearOrderedField α] (pi degrees : α) : α :=
  degrees * (pi / 180)

/-- The part of `MainWindow` the slots below use: the transport object, the text of
the status label, and whether the single-shot timer started by `onConnectCAN` (which
later calls `initMotorSettings(1)` and `initMotorSettings(2)`) is pending. -/
structure MainWindow where
  m_canThread : CANThread
  statusLabel : String
  initTimerPending : Bool

/-- The slot `MainWindow::updateStatus`, connected to `canStatusChanged`. -/
def updateStatus (w : MainWindow) (connected : Bool) : MainWindow :=
  { w with statusLabel := if connected then "状态: 已连接" else "状态: 已断开" }

/-- The slot `MainWindow::onConnectCAN` for the chosen interface and bitrate. -/
def onConnectCAN (w : MainWindow) (interface : String) (bitrate : Int) (env : ConnectEnv) :
    MainWindow × List Effect :=
  let res := initCAN w.m_canThread interface bitrate env
  if res.2.2 then
    ({ w with m_canThread := res.1, statusLabel := "已连接: " ++ interface,
              initTimerPending := true }, res.2.1)
  else
    ({ w with m_canThread := res.1 }, res.2.1)

/-- The body of `MainWindow::onCalculate` up to the two calls of `sendPosition`:
the new transport object, the effects and the displacement pair that is displayed;
`none` is undefined behaviour in `sendPosition`. -/
def onCalculate {α : Type} [LinearOrderedField α] [FloorRing α] (cos sin sqrt : α → α)
    (pi : α) (t : CANThread) (alpha beta : α) (env1 env2 : SendEnv) :
    Option (CANThread × List Effect × (α × α)) :=
  let delta := inverseKinematics cos sin sqrt
    (qDegreesToRadians pi alpha) (qDegreesToRadians pi beta)
  match sendPosition t 1 delta.1 env1 with
  | none => none
  | some r1 =>
    match sendPosition r1.1 2 delta.2 env2 with
    | none => none
    | some r2 => some (r2.1, r1.2 ++ r2.2, delta)

/-! ## Sequences of calls on the transport object -/

/-- One completed call of a public member function of `CANThread`, with the answers
of the environment. -/
inductive Call where
  | initCAN (interface : String) (bitrate : Int) (env : ConnectEnv)
  | stop (threadExits : Bool)
  | sendPosition (id : Int) (position : ℚ) (env : SendEnv)
  | initMotorSettings (id : Int) (writeRet1 writeRet2 : Int)

/-- The object after one call; a call with undefined behaviour leaves the model
where it is. -/
def step (t : CANThread) : Call → CANThread
  | .initCAN interface bitrate env => (initCAN t interface bitrate env).1
  | .stop threadExits => (stop t threadExits).1
  | .sendPosition id position env =>
    match sendPosition t id position env with
    | none => t
    | some r => r.1
  | .initMotorSettings id writeRet1 writeRet2 => (initMotorSettings t id writeRet1 writeRet2).1

/-- The object after a sequence of calls. -/
def runCalls (t : CANThread) (calls : List Call) : CANThread :=
  calls.foldl step t

/-- The invariant of the data model: the socket is open exactly when `running`. -/
def socketIffRunning (t : CANThread) : Prop :=
  t.m_can.socket ≠ -1 ↔ t.m_can.running = true

instance (t : CANThread) : Decidable (socketIffRunning t) := by
  unfold socketIffRunning
  infer_instance

/-- An environment in which every command exits with code 0 and `socket`, `ioctl`
and `bind` succeed, the new descriptor being 3. -/
def connectOk : ConnectEnv :=
  { process := fun _ => .exited 0 "", socketRet := some 3, ioctlRet := 0, bindRet := 0,
    strerror := "" }

/-- An environment in which the first command does not finish within the timeout. -/
def connectTimeout : ConnectEnv :=
  { process := fun _ => .timedOut, socketRet := some 3, ioctlRet := 0, bindRet := 0,
    strerror := "" }

/-- The window right after construction, before the first `onConnectCAN`. -/
def MainWindow.new (bitrate0 : Int) : MainWindow :=
  { m_canThread := CANThread.new bitrate0, statusLabel := "状态: 未连接",
    initTimerPending := false }

/-- Number of `close` system calls among the effects. -/
def closeCount (es : List Effect) : Nat :=
  (es.filter (fun e => match e with | .sys_close _ => true | _ => false)).length

/-! ## Lemmas on the byte arithmetic -/

/-- The cast is defined on every value of the signed 32-bit range. -/
theorem static_cast_int32_of_fit (x : Int) (h : -(2 : Int) ^ 31 ≤ x ∧ x < (2 : Int) ^ 31) :
    static_cast_int32 x = some x := by
  unfold static_cast_int32
  rw [if_pos h]

/-- A value strictly within one half of an integer is rounded to it. -/
theorem std_round_eq_of {α : Type} [LinearOrderedField α] [FloorRing α] (x : α) (z : Int)
    (h1 : (z : α) - 1 / 2 < x) (h2 : x < (z : α) + 1 / 2) : std_round x = z := by
  unfold std_round
  split
  · rw [Int.floor_eq_iff]
    constructor <;> linarith
  · rw [Int.ceil_eq_iff]
    constructor <;> linarith

/-- The rounded value is within one half of the argument. -/
theorem std_round_bounds {α : Type} [LinearOrderedField α] [FloorRing α] (x : α) :
    x - 1 / 2 ≤ (std_round x : α) ∧ (std_round x : α) ≤ x + 1 / 2 := by
  unfold std_round
  split
  · have h1 := Int.floor_le (x + 1 / 2)
    have h2 := Int.lt_floor_add_one (x + 1 / 2)
    constructor <;> linarith
  · have h1 := Int.le_ceil (x - 1 / 2)
    have h2 := Int.ceil_lt_add_one (x - 1 / 2)
    constructor <;> linarith

/-- The frame produced when the pulse count fits. -/
theorem packPositionData_of_fit {α : Type} [LinearOrderedField α] [FloorRing α]
    (id : Int) (position : α)
    (h : -(2 : Int) ^ 31 ≤ std_round (position * 2000)
      ∧ std_round (position * 2000) < (2 : Int) ^ 31) :
    packPositionData id position = some
      { can_id := canid_of_int id, can_dlc := 8,
        data := positionPayload (std_round (position * 2000)) } := by
  unfold packPositionData m_pulsePerMM
  rw [static_cast_int32_of_fit _ h]

/-- C5: in every transport state with `running = false` or `socket < 0`, for every
id and position, `sendPosition` and `initMotorSettings` leave the object unchanged
and their only effect is one error event "CAN未连接": no socket write, no
frame-log event, no position-sent event. -/
theorem send_while_disconnected {α : Type} [LinearOrderedField α] [FloorRing α]
    (t : CANThread) (h : t.m_can.running = false ∨ t.m_can.socket < 0)
    (id : Int) (position : α) (env : SendEnv) (writeRet1 writeRet2 : Int) :
    sendPosition t id position env = some (t, [.errorOccurred "CAN未连接"])
      ∧ initMotorSettings t id writeRet1 writeRet2 = (t, [.errorOccurred "CAN未连接"]) := by
  have hc : (!t.m_can.running || decide (t.m_can.socket < 0)) = true := by
    rcases h with h | h
    · simp [h]
    · simp [h]
  constructor
  · unfold sendPosition
    rw [if_pos hc]
  · unfold initMotorSettings
    rw [if_pos hc]

/-- Instance of C5 on the freshly constructed object (`socket = -1`,
`running = false`), motor 1, position 1.5 mm. -/
theorem send_while_disconnected_witness :
    ((CANThread.new 0).m_can.running = false ∨ (CANThread.new 0).m_can.socket < 0)
      ∧ sendPosition (CANThread.new 0) 1 (1.5 : ℚ) ⟨"", 16, ""⟩
          = some (CANThread.new 0, [.errorOccurred "CAN未连接"])
      ∧ initMotorSettings (CANThread.new 0) 1 16 16
          = (CANThread.new 0, [.errorOccurred "CAN未连接"]) :=
  ⟨Or.inl rfl, send_while_disconnected (CANThread.new 0) (Or.inl rfl) 1 (1.5 : ℚ) ⟨"", 16, ""⟩ 16 16⟩

/-- C7: in every connected state (`running = true`, `socket >= 0`), for every motor
id, when both writes return the full frame size, `initMotorSettings(id)` leaves the
object unchanged and its effects are, in this order: the write of the mode frame
(identifier `id` as converted to the identifier field, DLC 8, payload
`00 1A 02 00 D0 FF FF FF`), the write of the enable frame (same identifier, DLC 8,
payload `00 1A 00 00 01 FF FF FF`), and one event "[系统] 驱动器初始化完成"; there
is no error event. -/
theorem initMotorSettings_connected (t : CANThread) (id : Int) (writeRet1 writeRet2 : Int)
    (hr : t.m_can.running = true) (hs : 0 ≤ t.m_can.socket)
    (h1 : writeRet1 = sizeof_can_frame) (h2 : writeRet2 = sizeof_can_frame) :
    initMotorSettings t id writeRet1 writeRet2 =
      (t, [ .sys_write t.m_can.socket
              { can_id := canid_of_int id, can_dlc := 8,
                data := [0x00, 0x1A, 0x02, 0x00, 0xD0, 0xFF, 0xFF, 0xFF] },
            .sys_write t.m_can.socket
              { can_id := canid_of_int id, can_dlc := 8,
                data := [0x00, 0x1A, 0x00, 0x00, 0x01, 0xFF, 0xFF, 0xFF] },
            .frameInfo "[系统] 驱动器初始化完成" ]) := by
  have hc : ¬ ((!t.m_can.running || decide (t.m_can.socket < 0)) = true) := by
    simp [hr, hs]
  unfold initMotorSettings
  rw [if_neg hc, if_neg (by simp [h1]), if_neg (by simp [h2])]
  rfl

/-- Instance of C7 for motor 1 on the object connected on descriptor 3. -/
theorem initMotorSettings_connected_witness :
    (3 : Int) ≥ 0 ∧ (16 : Int) = sizeof_can_frame ∧
    initMotorSettings ⟨⟨"can0", 500000, 3, true⟩, false⟩ 1 16 16 =
      (⟨⟨"can0", 500000, 3, true⟩, false⟩,
        [ .sys_write 3 { can_id := 1, can_dlc := 8,
                         data := [0x00, 0x1A, 0x02, 0x00, 0xD0, 0xFF, 0xFF, 0xFF] },
          .sys_write 3 { can_id := 1, can_dlc := 8,
                         data := [0x00, 0x1A, 0x00, 0x00, 0x01, 0xFF, 0xFF, 0xFF] },
          .frameInfo "[系统] 驱动器初始化完成" ]) :=
  ⟨by decide, rfl,
    initMotorSettings_connected ⟨⟨"can0", 500000, 3, true⟩, false⟩ 1 16 16 rfl (by decide)
      rfl rfl⟩

/-- C8: for every transport state, a second `stop` right after a first one leaves
the same `CanConfig` as the first (`running = false`, `socket = -1`); the only
effect of the second call is one status event with `connected = false` (no `close`,
no error event), and the two calls together close at most one socket. -/
theorem stop_idempotent (t : CANThread) (threadExits1 threadExits2 : Bool) :
    (stop (stop t threadExits1).1 threadExits2).1.m_can = (stop t threadExits1).1.m_can
      ∧ (stop t threadExits1).1.m_can.running = false
      ∧ (stop t threadExits1).1.m_can.socket = -1
      ∧ (stop (stop t threadExits1).1 threadExits2).2 = [.canStatusChanged false]
      ∧ closeCount ((stop t threadExits1).2 ++ (stop (stop t threadExits1).1 threadExits2).2)
          ≤ 1 := by
  obtain ⟨⟨interface, bitrate, socket, running⟩, isRunning⟩ := t
  by_cases hs : socket = -1 <;> cases isRunning <;> cases threadExits1 <;>
    cases threadExits2 <;> simp [stop, hs, closeCount]

/-! ## Transport: the socket / running invariant and the receive thread -/

/-- Every command succeeds in the environment `connectOk`. -/
theorem runCommands_connectOk (cmds : List String) :
    (runCommands connectOk.process cmds).2 = true := by
  induction cmds with
  | nil => rfl
  | cons cmd rest ih => simpa [runCommands, connectOk] using ih

/-- C6, the code at the failing input: after a successful `initCAN` followed by an
`initCAN` whose first shell command times out, the old socket has been closed
(`socket = -1`) and `running` is still true, so the invariant "the socket is open if
and only if `running`" does not hold in this reachable state. -/
theorem failed_reconnect_breaks_invariant :
    (runCalls (CANThread.new 0)
        [.initCAN "can0" 500000 connectOk, .initCAN "can0" 500000 connectTimeout]).m_can.socket
        = -1
      ∧ (runCalls (CANThread.new 0)
        [.initCAN "can0" 500000 connectOk, .initCAN "can0" 500000 connectTimeout]).m_can.running
        = true
      ∧ ¬ socketIffRunning (runCalls (CANThread.new 0)
        [.initCAN "can0" 500000 connectOk, .initCAN "can0" 500000 connectTimeout]) := by
  have h1 : (runCommands connectOk.process (commands "can0" 500000)).2 = true :=
    runCommands_connectOk _
  have e1 : (initCAN (CANThread.new 0) "can0" 500000 connectOk).1
      = ⟨⟨"can0", 500000, 3, true⟩, false⟩ := by
    unfold initCAN
    simp [h1, CANThread.new]
    simp [connectOk]
  have e2 : (initCAN ⟨⟨"can0", 500000, 3, true⟩, false⟩ "can0" 500000 connectTimeout).1
      = ⟨⟨"can0", 500000, -1, true⟩, false⟩ := by
    unfold initCAN
    simp [commands, runCommands, connectTimeout]
  have e : runCalls (CANThread.new 0)
      [.initCAN "can0" 500000 connectOk, .initCAN "can0" 500000 connectTimeout]
      = ⟨⟨"can0", 500000, -1, true⟩, false⟩ := by
    simp only [runCalls, List.foldl, step]
    rw [e1, e2]
  rw [e]
  simp [socketIffRunning]

/-- What `initCAN` does to the object: the thread state is untouched, and either the
socket ends closed with `running` as before, or the object is connected. -/
theorem initCAN_state (t : CANThread) (interface : String) (bitrate : Int) (env : ConnectEnv) :
    (initCAN t interface bitrate env).1.isRunning = t.isRunning
      ∧ (((initCAN t interface bitrate env).1.m_can.socket = -1
            ∧ (initCAN t interface bitrate env).1.m_can.running = t.m_can.running)
          ∨ (initCAN t interface bitrate env).1.m_can.running = true) := by
  obtain ⟨⟨i, b, s, r⟩, ir⟩ := t
  unfold initCAN
  by_cases hs : s = -1 <;>
    cases hc : (runCommands env.process (commands interface bitrate)).2 <;>
    cases hso : env.socketRet <;>
    by_cases hi : env.ioctlRet < 0 <;>
    by_cases hb : env.bindRet < 0 <;>
    simp [hs, hc, hso, hi, hb]

/-- The functions `sendPosition` and `initMotorSettings` never change the object. -/
theorem send_state (t : CANThread) (c : Call)
    (hc : (∃ id position env, c = .sendPosition id position env)
      ∨ ∃ id w1 w2, c = .initMotorSettings id w1 w2) : step t c = t := by
  rcases hc with ⟨id, position, env, rfl⟩ | ⟨id, w1, w2, rfl⟩
  · by_cases h1 : (!t.m_can.running || decide (t.m_can.socket < 0)) = true <;>
      cases h2 : packPositionData id position <;>
      by_cases h3 : env.writeRet = sizeof_can_frame <;>
      cases h4 : double_to_int32 position <;>
      simp [step, sendPosition, h1, h2, h3, h4]
  · simp only [step, initMotorSettings]
    split_ifs <;> rfl

/-- What `stop` does to the object: the socket ends closed and `running` false; a
thread that was not running is not running afterwards. -/
theorem stop_state (t : CANThread) (threadExits : Bool) :
    (stop t threadExits).1.m_can.socket = -1
      ∧ (stop t threadExits).1.m_can.running = false
      ∧ (t.isRunning = false → (stop t threadExits).1.isRunning = false) := by
  obtain ⟨⟨i, b, s, r⟩, ir⟩ := t
  by_cases hs : s = -1 <;> cases ir <;> cases threadExits <;> simp [stop, hs]

/-- One direction of the invariant does hold in every reachable state: an open socket
implies `running`. -/
theorem socket_open_implies_running (bitrate0 : Int) (calls : List Call) :
    (runCalls (CANThread.new bitrate0) calls).m_can.socket ≠ -1 →
      (runCalls (CANThread.new bitrate0) calls).m_can.running = true := by
  have hstep : ∀ (t : CANThread) (c : Call),
      (t.m_can.socket ≠ -1 → t.m_can.running = true) →
      ((step t c).m_can.socket ≠ -1 → (step t c).m_can.running = true) := by
    intro t c ht
    cases c with
    | initCAN interface bitrate env =>
      intro h
      rcases (initCAN_state t interface bitrate env).2 with ⟨h1, _⟩ | h1
      · exact absurd h1 h
      · exact h1
    | stop threadExits =>
      intro h
      exact absurd (stop_state t threadExits).1 h
    | sendPosition id position env =>
      rw [send_state t _ (Or.inl ⟨id, position, env, rfl⟩)]
      exact ht
    | initMotorSettings id writeRet1 writeRet2 =>
      rw [send_state t _ (Or.inr ⟨id, writeRet1, writeRet2, rfl⟩)]
      exact ht
  have hall : ∀ (calls : List Call) (t : CANThread),
      (t.m_can.socket ≠ -1 → t.m_can.running = true) →
      ((runCalls t calls).m_can.socket ≠ -1 → (runCalls t calls).m_can.running = true) := by
    intro calls
    induction calls with
    | nil => intro t ht; exact ht
    | cons c rest ih =>
      intro t ht
      exact ih (step t c) (hstep t c ht)
  exact hall calls _ (by simp [CANThread.new])

/-- C9, the code at the failing input: after `onConnectCAN` with a successful
`initCAN` on the new window the transport is connected (`running = true`, socket 3
open) and the timer for the initialisation sequence is pending, but the thread whose
body is `run` has not been started: `isRunning` is false. -/
theorem connect_does_not_start_thread :
    (onConnectCAN (MainWindow.new 0) "can0" 500000 connectOk).1.m_canThread.m_can.running
        = true
      ∧ (onConnectCAN (MainWindow.new 0) "can0" 500000 connectOk).1.m_canThread.m_can.socket
        = 3
      ∧ (onConnectCAN (MainWindow.new 0) "can0" 500000 connectOk).1.initTimerPending = true
      ∧ (onConnectCAN (MainWindow.new 0) "can0" 500000 connectOk).1.m_canThread.isRunning
        = false := by
  have h1 : (runCommands connectOk.process (commands "can0" 500000)).2 = true :=
    runCommands_connectOk _
  have e1 : initCAN (CANThread.new 0) "can0" 500000 connectOk
      = (⟨⟨"can0", 500000, 3, true⟩, false⟩,
          (runCommands connectOk.process (commands "can0" 500000)).1
            ++ [.sys_socket, .sys_ioctl 3, .sys_bind 3, .canStatusChanged true], true) := by
    unfold initCAN
    simp [h1, CANThread.new]
    simp [connectOk]
  simp [onConnectCAN, MainWindow.new, e1]

/-- No sequence of calls of the public member functions starts the thread. -/
theorem thread_never_started (bitrate0 : Int) (calls : List Call) :
    (runCalls (CANThread.new bitrate0) calls).isRunning = false := by
  have hstep : ∀ (t : CANThread) (c : Call),
      t.isRunning = false → (step t c).isRunning = false := by
    intro t c ht
    cases c with
    | initCAN interface bitrate env =>
      exact (initCAN_state t interface bitrate env).1.trans ht
    | stop threadExits => exact (stop_state t threadExits).2.2 ht
    | sendPosition id position env =>
      rw [send_state t _ (Or.inl ⟨id, position, env, rfl⟩)]
      exact ht
    | initMotorSettings id writeRet1 writeRet2 =>
      rw [send_state t _ (Or.inr ⟨id, writeRet1, writeRet2, rfl⟩)]
      exact ht
  have hall : ∀ (calls : List Call) (t : CANThread),
      t.isRunning = false → (runCalls t calls).isRunning = false := by
    intro calls
    induction calls with
    | nil => intro t ht; exact ht
    | cons c rest ih =>
      intro t ht
      exact ih (step t c) (hstep t c ht)
  exact hall calls _ rfl

/-! ## Solver -/

/-- The solver in closed form. -/
theorem inverseKinematics_eq {α : Type} [LinearOrderedField α] (cos sin sqrt : α → α)
    (theta gamma : α) :
    inverseKinematics cos sin sqrt theta gamma =
      (sqrt ((189.04 * cos theta - 306.25) ^ 2 + (831.278 - 189.04 * sin theta) ^ 2) - 839.5,
       sqrt ((189.04 * (sin theta * sin gamma)) ^ 2 + (189.04 * cos gamma - 306.25) ^ 2
          + (831.278 + 189.04 * (cos theta * sin gamma)) ^ 2) - 839.5) := by
  unfold inverseKinematics
  simp only [List.foldl, Matrix.cons_val_zero, Matrix.cons_val_one, Matrix.head_cons,
    Matrix.cons_val_two, Matrix.tail_cons]
  congr 3 <;> ring

/-- The solver at zero tilt. -/
theorem inverseKinematics_zero :
    inverseKinematics Real.cos Real.sin Real.sqrt 0 0
      = (Real.sqrt 704761.297384 - 839.5, Real.sqrt 704761.297384 - 839.5) := by
  rw [inverseKinematics_eq]
  simp only [Real.cos_zero, Real.sin_zero]
  congr 3 <;> norm_num

/-- Numerical enclosure of the leg length at zero tilt. -/
theorem sqrt_zero_tilt_bounds :
    (839.50062 : ℝ) < Real.sqrt 704761.297384 ∧ Real.sqrt 704761.297384 < (839.50063 : ℝ) := by
  constructor
  · rw [Real.lt_sqrt (by norm_num)]
    norm_num
  · rw [Real.sqrt_lt' (by norm_num)]
    norm_num

/-- Counterexample to C3: at `theta = gamma = 0` the solver does not return `(0, 0)`:
the leg length `sqrt((R - r)^2 + h0^2) = sqrt(704761.297384)` is not `L0 = 839.5`. -/
theorem zero_tilt_not_zero :
    inverseKinematics Real.cos Real.sin Real.sqrt 0 0 ≠ (0, 0) := by
  rw [inverseKinematics_zero]
  intro h
  have h1 := (Prod.mk.inj h).1
  have := sqrt_zero_tilt_bounds.1
  linarith

/-- C3 as the code has it: with `theta = gamma = 0` the solver returns two equal
displacements `d = sqrt(704761.297384) - 839.5` with `0.00062 < d < 0.00063` (both
leg lengths equal `sqrt((R - r)^2 + h0^2)`, about 0.62 micrometres more than `L0`);
the pulse count `round(d * 2000)` is 1. -/
theorem zero_tilt_displacement :
    (inverseKinematics Real.cos Real.sin Real.sqrt 0 0).1
        = (inverseKinematics Real.cos Real.sin Real.sqrt 0 0).2
      ∧ (inverseKinematics Real.cos Real.sin Real.sqrt 0 0).1 = Real.sqrt 704761.297384 - 839.5
      ∧ (0.00062 : ℝ) < (inverseKinematics Real.cos Real.sin Real.sqrt 0 0).1
      ∧ (inverseKinematics Real.cos Real.sin Real.sqrt 0 0).1 < (0.00063 : ℝ)
      ∧ std_round ((inverseKinematics Real.cos Real.sin Real.sqrt 0 0).1 * 2000) = 1 := by
  rw [inverseKinematics_zero]
  obtain ⟨h1, h2⟩ := sqrt_zero_tilt_bounds
  refine ⟨rfl, rfl, ?_, ?_, ?_⟩
  · simp only; linarith
  · simp only; linarith
  · apply std_round_eq_of
    · push_cast; linarith
    · push_cast; linarith

/-- Two legs whose squared lengths are `A - B` and `A + B` add up to more than `2 L0`
as soon as `4 L0² A - B² - 4 L0⁴ > 0`. -/
theorem sqrt_sum_gt (A B L : ℝ) (hm : 0 ≤ A - B) (hp : 0 ≤ A + B)
    (hf : 0 < 4 * L ^ 2 * A - B ^ 2 - 4 * L ^ 4) :
    2 * L < Real.sqrt (A - B) + Real.sqrt (A + B) := by
  by_contra hcon
  push_neg at hcon
  have h1 := Real.sqrt_nonneg (A - B)
  have h2 := Real.sqrt_nonneg (A + B)
  have e1 := Real.sq_sqrt hm
  have e2 := Real.sq_sqrt hp
  set x := Real.sqrt (A - B)
  set y := Real.sqrt (A + B)
  have hxy : 0 ≤ x * y := mul_nonneg h1 h2
  have hsq : (x + y) ^ 2 ≤ (2 * L) ^ 2 := by
    apply pow_le_pow_left₀ (by linarith) hcon 2
  have h3 : x * y ≤ 2 * L ^ 2 - A := by nlinarith
  have h4 : (x * y) ^ 2 ≤ (2 * L ^ 2 - A) ^ 2 := pow_le_pow_left₀ hxy h3 2
  have h5 : (x * y) ^ 2 = (A - B) * (A + B) := by rw [mul_pow, e1, e2]
  nlinarith

/-- The quadratic that decides `sqrt_sum_gt` for the constants of the solver is
positive up to `c = 1`. -/
theorem leg_quadratic_pos (c : ℝ) (h2 : c ≤ 1) :
    0 < (839.5 : ℝ) ^ 2 * ((189.04 : ℝ) ^ 2 + 306.25 ^ 2 + 831.278 ^ 2 - 2 * 189.04 * 306.25 * c)
      - (831.278 : ℝ) ^ 2 * 189.04 ^ 2 * (1 - c ^ 2) - (839.5 : ℝ) ^ 4 := by
  nlinarith [sq_nonneg (1 - c)]

/-- The two legs of squared lengths `K - 2 r R c ∓ 2 h0 r b`, with `b² ≤ 1 - c²`,
add up to more than `2 L0`. -/
theorem leg_sum_gt (c b X Y : ℝ) (hc : c ≤ 1) (hb : b ^ 2 ≤ 1 - c ^ 2)
    (hX : X = (189.04 : ℝ) ^ 2 + 306.25 ^ 2 + 831.278 ^ 2 - 2 * 189.04 * 306.25 * c
      - 2 * 831.278 * 189.04 * b)
    (hY : Y = (189.04 : ℝ) ^ 2 + 306.25 ^ 2 + 831.278 ^ 2 - 2 * 189.04 * 306.25 * c
      + 2 * 831.278 * 189.04 * b)
    (hm : 0 ≤ X) (hp : 0 ≤ Y) :
    2 * 839.5 < Real.sqrt X + Real.sqrt Y := by
  have hq := leg_quadratic_pos c hc
  subst hX hY
  apply sqrt_sum_gt _ _ _ hm hp
  have hB : (2 * 831.278 * 189.04 * b) ^ 2
      ≤ 4 * (831.278 : ℝ) ^ 2 * 189.04 ^ 2 * (1 - c ^ 2) := by
    have : (2 * 831.278 * 189.04 * b) ^ 2 = 4 * (831.278 : ℝ) ^ 2 * 189.04 ^ 2 * b ^ 2 := by
      ring
    rw [this]
    exact mul_le_mul_of_nonneg_left hb (by norm_num)
  linarith

/-- The solver at the negated angles. -/
theorem inverseKinematics_neg (θ γ : ℝ) :
    inverseKinematics Real.cos Real.sin Real.sqrt (-θ) (-γ) =
      (Real.sqrt ((189.04 * Real.cos θ - 306.25) ^ 2
          + (831.278 + 189.04 * Real.sin θ) ^ 2) - 839.5,
       Real.sqrt ((189.04 * (Real.sin θ * Real.sin γ)) ^ 2
          + (189.04 * Real.cos γ - 306.25) ^ 2
          + (831.278 - 189.04 * (Real.cos θ * Real.sin γ)) ^ 2) - 839.5) := by
  rw [inverseKinematics_eq, Real.cos_neg, Real.sin_neg, Real.cos_neg, Real.sin_neg]
  congr 3 <;> ring

/-- The sum of the two first-leg lengths at opposite angles exceeds `2 L0`. -/
theorem first_leg_sum (c s : ℝ) (h : s ^ 2 + c ^ 2 = 1) :
    2 * 839.5 < Real.sqrt ((189.04 * c - 306.25) ^ 2 + (831.278 - 189.04 * s) ^ 2)
      + Real.sqrt ((189.04 * c - 306.25) ^ 2 + (831.278 + 189.04 * s) ^ 2) := by
  have hc : c ≤ 1 := by nlinarith [sq_nonneg s, sq_nonneg (c - 1)]
  have hs : s ^ 2 ≤ 1 - c ^ 2 := by linarith
  exact leg_sum_gt c s _ _ hc hs
    (by linear_combination ((189.04 : ℝ) ^ 2) * h)
    (by linear_combination ((189.04 : ℝ) ^ 2) * h)
    (by positivity) (by positivity)

/-- The sum of the two second-leg lengths at opposite angles exceeds `2 L0`. -/
theorem second_leg_sum (c s c2 s2 : ℝ) (h : s ^ 2 + c ^ 2 = 1) (h2 : s2 ^ 2 + c2 ^ 2 = 1) :
    2 * 839.5 < Real.sqrt ((189.04 * (s * s2)) ^ 2 + (189.04 * c2 - 306.25) ^ 2
          + (831.278 + 189.04 * (c * s2)) ^ 2)
      + Real.sqrt ((189.04 * (s * s2)) ^ 2 + (189.04 * c2 - 306.25) ^ 2
          + (831.278 - 189.04 * (c * s2)) ^ 2) := by
  have hc2 : c2 ≤ 1 := by nlinarith [sq_nonneg s2, sq_nonneg (c2 - 1)]
  have hb : (-(c * s2)) ^ 2 ≤ 1 - c2 ^ 2 := by
    have e : (-(c * s2)) ^ 2 = (1 - s ^ 2) * s2 ^ 2 := by
      linear_combination (s2 ^ 2) * h
    have e2 : 1 - c2 ^ 2 = s2 ^ 2 := by linear_combination -h2
    rw [e, e2]
    have : (1 - s ^ 2) * s2 ^ 2 = s2 ^ 2 - s ^ 2 * s2 ^ 2 := by ring
    rw [this]
    have := mul_nonneg (sq_nonneg s) (sq_nonneg s2)
    linarith
  exact leg_sum_gt c2 (-(c * s2)) _ _ hc2 hb
    (by linear_combination ((189.04 : ℝ) ^ 2 * s2 ^ 2) * h + ((189.04 : ℝ) ^ 2) * h2)
    (by linear_combination ((189.04 : ℝ) ^ 2 * s2 ^ 2) * h + ((189.04 : ℝ) ^ 2) * h2)
    (by positivity) (by positivity)

/-- The displacements at `(theta, gamma)` and at `(-theta, -gamma)` have strictly
positive sums, leg by leg. -/
theorem displacement_sums_pos (θ γ : ℝ) :
    0 < (inverseKinematics Real.cos Real.sin Real.sqrt θ γ).1
          + (inverseKinematics Real.cos Real.sin Real.sqrt (-θ) (-γ)).1
      ∧ 0 < (inverseKinematics Real.cos Real.sin Real.sqrt θ γ).2
          + (inverseKinematics Real.cos Real.sin Real.sqrt (-θ) (-γ)).2 := by
  have h := Real.sin_sq_add_cos_sq θ
  have h2 := Real.sin_sq_add_cos_sq γ
  have s1 := first_leg_sum (Real.cos θ) (Real.sin θ) h
  have s2 := second_leg_sum (Real.cos θ) (Real.sin θ) (Real.cos γ) (Real.sin γ) h h2
  rw [inverseKinematics_neg, inverseKinematics_eq]
  constructor
  · simp only; linarith
  · simp only; linarith

/-- Counterexample to C4 at the pair named by the claim, `theta = 10°`, `gamma = 5°`
(in radians): the displacement pair at `(-10°, -5°)` is not the negated pair. -/
theorem negation_symmetry_fails :
    inverseKinematics Real.cos Real.sin Real.sqrt (-(Real.pi / 18)) (-(Real.pi / 36))
      ≠ (-(inverseKinematics Real.cos Real.sin Real.sqrt (Real.pi / 18) (Real.pi / 36)).1,
         -(inverseKinematics Real.cos Real.sin Real.sqrt (Real.pi / 18) (Real.pi / 36)).2) := by
  intro hEq
  have h1 := (displacement_sums_pos (Real.pi / 18) (Real.pi / 36)).1
  rw [hEq] at h1
  simp only at h1
  linarith

/-- C4 as the code has it: for every angle pair, negating both angles changes the
squared leg lengths `(delta + L0)^2` by `4 r h0 sin(theta)` for the first leg and by
`4 r h0 cos(theta) sin(gamma)` for the second one; the sums `delta1 + delta1'` and
`delta2 + delta2'` of the displacements at `(theta, gamma)` and `(-theta, -gamma)` are
strictly positive, so the displacement pair at the negated angles is never the
negated pair. -/
theorem negated_angles_leg_relation (θ γ : ℝ) :
    ((inverseKinematics Real.cos Real.sin Real.sqrt (-θ) (-γ)).1 + 839.5) ^ 2
        - ((inverseKinematics Real.cos Real.sin Real.sqrt θ γ).1 + 839.5) ^ 2
        = 4 * 189.04 * 831.278 * Real.sin θ
      ∧ ((inverseKinematics Real.cos Real.sin Real.sqrt θ γ).2 + 839.5) ^ 2
        - ((inverseKinematics Real.cos Real.sin Real.sqrt (-θ) (-γ)).2 + 839.5) ^ 2
        = 4 * 189.04 * 831.278 * (Real.cos θ * Real.sin γ)
      ∧ 0 < (inverseKinematics Real.cos Real.sin Real.sqrt θ γ).1
          + (inverseKinematics Real.cos Real.sin Real.sqrt (-θ) (-γ)).1
      ∧ 0 < (inverseKinematics Real.cos Real.sin Real.sqrt θ γ).2
          + (inverseKinematics Real.cos Real.sin Real.sqrt (-θ) (-γ)).2
      ∧ inverseKinematics Real.cos Real.sin Real.sqrt (-θ) (-γ)
          ≠ (-(inverseKinematics Real.cos Real.sin Real.sqrt θ γ).1,
             -(inverseKinematics Real.cos Real.sin Real.sqrt θ γ).2) := by
  obtain ⟨p1, p2⟩ := displacement_sums_pos θ γ
  refine ⟨?_, ?_, p1, p2, ?_⟩
  · rw [inverseKinematics_neg, inverseKinematics_eq]
    simp only [sub_add_cancel]
    rw [Real.sq_sqrt (by positivity), Real.sq_sqrt (by positivity)]
    ring
  · rw [inverseKinematics_neg, inverseKinematics_eq]
    simp only [sub_add_cancel]
    rw [Real.sq_sqrt (by positivity), Real.sq_sqrt (by positivity)]
    ring
  · intro hEq
    rw [hEq] at p1
    simp only at p1
    linarith

/-- A leg of squared length `K - 2 r R c - 2 h0 r b` with `c, b ≥ -1` is not longer
than `r + R + h0`. -/
theorem leg_le (c b X : ℝ) (hc : -1 ≤ c) (hb : -1 ≤ b)
    (hX : X = (189.04 : ℝ) ^ 2 + 306.25 ^ 2 + 831.278 ^ 2 - 2 * 189.04 * 306.25 * c
      - 2 * 831.278 * 189.04 * b) :
    Real.sqrt X ≤ 1326.568 := by
  rw [Real.sqrt_le_iff]
  refine ⟨by norm_num, ?_⟩
  rw [hX]
  have e : (1326.568 : ℝ) ^ 2 = (189.04 : ℝ) ^ 2 + 306.25 ^ 2 + 831.278 ^ 2
      + 2 * 189.04 * 306.25 + 2 * 831.278 * 189.04 + 2 * 306.25 * 831.278 := by norm_num
  rw [e]
  have h1 : -(2 * 189.04 * 306.25 * c) ≤ 2 * 189.04 * 306.25 := by linarith
  have h2 : -(2 * 831.278 * 189.04 * b) ≤ 2 * 831.278 * 189.04 := by linarith
  have h3 : (0 : ℝ) ≤ 2 * 306.25 * 831.278 := by norm_num
  linarith

/-- Both displacements lie in `[-L0, r + R + h0 - L0]`. -/
theorem inverseKinematics_range (θ γ : ℝ) :
    (-839.5 ≤ (inverseKinematics Real.cos Real.sin Real.sqrt θ γ).1
        ∧ (inverseKinematics Real.cos Real.sin Real.sqrt θ γ).1 ≤ 487.068)
      ∧ (-839.5 ≤ (inverseKinematics Real.cos Real.sin Real.sqrt θ γ).2
        ∧ (inverseKinematics Real.cos Real.sin Real.sqrt θ γ).2 ≤ 487.068) := by
  have h := Real.sin_sq_add_cos_sq θ
  have h2 := Real.sin_sq_add_cos_sq γ
  have hc := Real.neg_one_le_cos θ
  have hs := Real.neg_one_le_sin θ
  have hc2 := Real.neg_one_le_cos γ
  have hb : -1 ≤ -(Real.cos θ * Real.sin γ) := by
    have := abs_le.mp (Real.abs_cos_le_one θ)
    have := abs_le.mp (Real.abs_sin_le_one γ)
    nlinarith
  rw [inverseKinematics_eq]
  have u1 := leg_le (Real.cos θ) (Real.sin θ) _ hc hs
    (show (189.04 * Real.cos θ - 306.25) ^ 2 + (831.278 - 189.04 * Real.sin θ) ^ 2 = _ by
      linear_combination ((189.04 : ℝ) ^ 2) * h)
  have u2 := leg_le (Real.cos γ) (-(Real.cos θ * Real.sin γ)) _ hc2 hb
    (show (189.04 * (Real.sin θ * Real.sin γ)) ^ 2 + (189.04 * Real.cos γ - 306.25) ^ 2
        + (831.278 + 189.04 * (Real.cos θ * Real.sin γ)) ^ 2 = _ by
      linear_combination ((189.04 : ℝ) ^ 2 * Real.sin γ ^ 2) * h + ((189.04 : ℝ) ^ 2) * h2)
  have l1 := Real.sqrt_nonneg
    ((189.04 * Real.cos θ - 306.25) ^ 2 + (831.278 - 189.04 * Real.sin θ) ^ 2)
  have l2 := Real.sqrt_nonneg
    ((189.04 * (Real.sin θ * Real.sin γ)) ^ 2 + (189.04 * Real.cos γ - 306.25) ^ 2
        + (831.278 + 189.04 * (Real.cos θ * Real.sin γ)) ^ 2)
  refine ⟨⟨?_, ?_⟩, ?_, ?_⟩ <;> simp only <;> linarith

/-- A displacement in `[-839.5, 487.068]` has a pulse count strictly inside the
signed 32-bit range, and both conversions of `sendPosition` are defined. -/
theorem pulse_fits (d : ℝ) (h1 : -839.5 ≤ d) (h2 : d ≤ 487.068) :
    (-(2 : Int) ^ 31 < std_round (d * 2000) ∧ std_round (d * 2000) < (2 : Int) ^ 31 - 1)
      ∧ double_to_int32 d ≠ none := by
  obtain ⟨b1, b2⟩ := std_round_bounds (d * 2000)
  have lo : ((-1679001 : Int) : ℝ) ≤ (std_round (d * 2000) : ℝ) := by
    push_cast; linarith
  have hi : (std_round (d * 2000) : ℝ) ≤ ((974137 : Int) : ℝ) := by
    push_cast; linarith
  have lo2 : (-1679001 : Int) ≤ std_round (d * 2000) := by exact_mod_cast lo
  have hi2 : std_round (d * 2000) ≤ (974137 : Int) := by exact_mod_cast hi
  refine ⟨⟨by omega, by omega⟩, ?_⟩
  unfold double_to_int32
  have t1 : (-840 : Int) ≤ (if 0 ≤ d then ⌊d⌋ else ⌈d⌉) := by
    split
    · exact Int.le_floor.mpr (by push_cast; linarith)
    · exact Int.le_ceil_iff.mpr (by push_cast; linarith)
  have t2 : (if 0 ≤ d then ⌊d⌋ else ⌈d⌉) ≤ (488 : Int) := by
    split
    · have := Int.floor_le d
      have : ((⌊d⌋ : Int) : ℝ) ≤ ((488 : Int) : ℝ) := by push_cast; linarith
      exact_mod_cast this
    · exact Int.ceil_le.mpr (by push_cast; linarith)
  rw [static_cast_int32_of_fit _ ⟨by omega, by omega⟩]
  simp

/-- C10: for every real angle pair, with no clamping, both displacements returned by
`inverseKinematics` lie in `[-L0, r + R + h0 - L0] = [-839.5, 487.068]`; the pulse
count `round(delta * 2000)` of either axis lies strictly inside the signed 32-bit
range, so `packPositionData` is defined on it for every motor id, and so is
`onCalculate` (its two `sendPosition` calls) for every pair of angles in degrees,
every transport state and every answer of the environment. -/
theorem solver_output_pulse_fits (θ γ : ℝ) :
    ((-839.5 ≤ (inverseKinematics Real.cos Real.sin Real.sqrt θ γ).1
        ∧ (inverseKinematics Real.cos Real.sin Real.sqrt θ γ).1 ≤ 487.068)
      ∧ (-839.5 ≤ (inverseKinematics Real.cos Real.sin Real.sqrt θ γ).2
        ∧ (inverseKinematics Real.cos Real.sin Real.sqrt θ γ).2 ≤ 487.068))
    ∧ (-(2 : Int) ^ 31
          < std_round ((inverseKinematics Real.cos Real.sin Real.sqrt θ γ).1 * 2000)
        ∧ std_round ((inverseKinematics Real.cos Real.sin Real.sqrt θ γ).1 * 2000)
          < (2 : Int) ^ 31 - 1)
    ∧ (-(2 : Int) ^ 31
          < std_round ((inverseKinematics Real.cos Real.sin Real.sqrt θ γ).2 * 2000)
        ∧ std_round ((inverseKinematics Real.cos Real.sin Real.sqrt θ γ).2 * 2000)
          < (2 : Int) ^ 31 - 1)
    ∧ (∀ id : Int,
        packPositionData id (inverseKinematics Real.cos Real.sin Real.sqrt θ γ).1 ≠ none
        ∧ packPositionData id (inverseKinematics Real.cos Real.sin Real.sqrt θ γ).2 ≠ none)
    ∧ (∀ (pi alpha beta : ℝ) (t : CANThread) (env1 env2 : SendEnv),
        onCalculate Real.cos Real.sin Real.sqrt pi t alpha beta env1 env2 ≠ none) := by
  have key : ∀ a b : ℝ,
      ((-(2 : Int) ^ 31
          < std_round ((inverseKinematics Real.cos Real.sin Real.sqrt a b).1 * 2000)
        ∧ std_round ((inverseKinematics Real.cos Real.sin Real.sqrt a b).1 * 2000)
          < (2 : Int) ^ 31 - 1)
        ∧ double_to_int32 (inverseKinematics Real.cos Real.sin Real.sqrt a b).1 ≠ none)
      ∧ ((-(2 : Int) ^ 31
          < std_round ((inverseKinematics Real.cos Real.sin Real.sqrt a b).2 * 2000)
        ∧ std_round ((inverseKinematics Real.cos Real.sin Real.sqrt a b).2 * 2000)
          < (2 : Int) ^ 31 - 1)
        ∧ double_to_int32 (inverseKinematics Real.cos Real.sin Real.sqrt a b).2 ≠ none) := by
    intro a b
    obtain ⟨⟨r1, r2⟩, r3, r4⟩ := inverseKinematics_range a b
    exact ⟨pulse_fits _ r1 r2, pulse_fits _ r3 r4⟩
  have send : ∀ (t : CANThread) (id : Int) (d : ℝ) (env : SendEnv),
      (-(2 : Int) ^ 31 < std_round (d * 2000) ∧ std_round (d * 2000) < (2 : Int) ^ 31 - 1) →
      double_to_int32 d ≠ none → ∃ r, sendPosition t id d env = some r := by
    intro t id d env hfit htr
    obtain ⟨shown, hshown⟩ := Option.ne_none_iff_exists'.mp htr
    have hp := packPositionData_of_fit id d ⟨by omega, by omega⟩
    unfold sendPosition
    rw [hp, hshown]
    split_ifs <;> exact ⟨_, rfl⟩
  refine ⟨inverseKinematics_range θ γ, (key θ γ).1.1, (key θ γ).2.1, ?_, ?_⟩
  · intro id
    constructor
    · rw [packPositionData_of_fit id _ ⟨by have := (key θ γ).1.1; omega,
        by have := (key θ γ).1.1; omega⟩]
      simp
    · rw [packPositionData_of_fit id _ ⟨by have := (key θ γ).2.1; omega,
        by have := (key θ γ).2.1; omega⟩]
      simp
  · intro pi alpha beta t env1 env2
    unfold onCalculate
    obtain ⟨⟨f1, g1⟩, f2, g2⟩ :=
      key (qDegreesToRadians pi alpha) (qDegreesToRadians pi beta)
    obtain ⟨r1, hr1⟩ := send t 1 _ env1 f1 g1
    obtain ⟨r2, hr2⟩ := send r1.1 2 _ env2 f2 g2
    simp only [hr1, hr2]
    simp
end CAN
